import Mathlib

/-!
Verification of the emotion-based music recommendation system.

Shallow embedding of the repository's Python sources:
  * `config.py`              — emotion label table,
  * `utils/camera.py`        — per-frame emotion aggregation (`detect_and_draw`,
                               `predict_on_face_crop`),
  * `utils/emotion_to_song.py` — the static emotion→playlist mapping,
  * `utils/spotify_client.py` — credential cache, device choice, playback dispatch,
  * `main.py`                — session state update and the capture action.

External collaborators (the YOLO model, the Haar face cascade, the Spotify web
API, the file system and the browser) are modelled as oracles: their outputs are
parameters of the embedded functions, and the side effects the code performs on
them (network calls, cache writes, fallback launches) are recorded in explicit
event lists.  Floating-point confidences are modelled as rationals.
-/

namespace EmotionPlayer

/-! ## config.py -/

/-- `EMOTION_NAMES` from `config.py`: emotion labels in training order. -/
def EMOTION_NAMES : List String :=
  ["anger", "content", "disgust", "fear", "happy", "neutral", "sad", "surprise"]

/-! ## utils/camera.py — data model -/

/-- One detection returned by the model boundary: a class id and a confidence
(the bounding-box coordinates play no role in the aggregation logic and are
absorbed into the oracle's keying). -/
structure Det where
  clsId : Nat
  conf : ℚ
  deriving DecidableEq, Repr

/-- A face rectangle as returned by the Haar cascade (`detectMultiScale`). -/
structure Rect where
  x : Int
  y : Int
  w : Int
  h : Int
  deriving DecidableEq, Repr

/-- The per-face classification result of `predict_on_face_crop`:
`none` models the Python `(None, 0.0)` return, `some (clsId, conf)` the
`(int(cls_id), float(cls_conf))` return. -/
abbrev FaceResult := Option (Nat × ℚ)

/-- `predict_on_face_crop` (camera.py lines 44–56) restricted to its decision
logic: among the detections of one crop it returns the one with the highest
confidence, Python's `max` keeping the earliest on ties, or `none` when the
detection list is empty. -/
def predict_on_face_crop (dets : List Det) : FaceResult :=
  match dets with
  | [] => none
  | d :: rest =>
      some (rest.foldl (fun b e => if b.2 < e.conf then (e.clsId, e.conf) else b)
        (d.clsId, d.conf))

/-- The label rendering of camera.py lines 82 and 95:
`EMOTION_NAMES[cls_id] if cls_id < len(EMOTION_NAMES) else str(cls_id)`. -/
def labelOf (clsId : Nat) : String :=
  if h : clsId < EMOTION_NAMES.length then EMOTION_NAMES.get ⟨clsId, h⟩
  else toString clsId

/-- One step of the dominant-emotion tracking loop of camera.py lines 80–82:
a per-face result replaces the current dominant only when its confidence is
strictly greater (`cls_conf > dominant_conf`). -/
def stepFace (acc : Option String × ℚ) (r : FaceResult) : Option String × ℚ :=
  match r with
  | none => acc
  | some (i, q) => if acc.2 < q then (some (labelOf i), q) else acc

/-- One step of the fallback tracking loop of camera.py lines 92–95 (here
`cls_id` is always an `int`, never `None`). -/
def stepDet (acc : Option String × ℚ) (d : Det) : Option String × ℚ :=
  if acc.2 < d.conf then (some (labelOf d.clsId), d.conf) else acc

/-- The emotion-name portion of the label drawn for one face box
(camera.py line 85): `"..."` when the crop yielded no result, the enumeration
name when the class id is in range, and `'...'` otherwise.  (The numeric
confidence suffix `f"{conf:0.2f}"` of the drawn string is not modelled; only
the rendered emotion text matters here.) -/
def faceAnnot (r : FaceResult) : String :=
  match r with
  | none => "..."
  | some (i, _) =>
      if h : i < EMOTION_NAMES.length then EMOTION_NAMES.get ⟨i, h⟩ else "..."

/-- The emotion-name portion of the label drawn for one fallback detection box
(camera.py line 96). -/
def detAnnot (d : Det) : String :=
  if h : d.clsId < EMOTION_NAMES.length then EMOTION_NAMES.get ⟨d.clsId, h⟩
  else "..."

/-- The observable output of one `detect_and_draw` call: the dominant
emotion/confidence pair, the emotion texts drawn on the frame, and how many
times the classifier was invoked on a face crop resp. on the whole frame. -/
structure AggOut where
  dominant : Option String × ℚ
  annots : List String
  cropCalls : Nat
  frameCalls : Nat
  deriving DecidableEq, Repr

/-- The list of per-face classification results of one frame, in the face
locator's iteration order. -/
def faceResults (faces : List Rect) (classifyCrop : Rect → List Det) :
    List FaceResult :=
  faces.map fun f => predict_on_face_crop (classifyCrop f)

/-- `detect_and_draw` (camera.py lines 58–100).  `faces` is the rectangle list
returned by the face locator; `classifyCrop` is the classifier oracle for the
(padded, clamped) crop of each face rectangle; `frameDets` is the detection
list the classifier returns when invoked on the entire frame. -/
def detect_and_draw (faces : List Rect) (classifyCrop : Rect → List Det)
    (frameDets : List Det) : AggOut :=
  if faces.length > 0 then
    let results := faceResults faces classifyCrop
    { dominant := results.foldl stepFace (none, 0)
      annots := results.map faceAnnot
      cropCalls := faces.length
      frameCalls := 0 }
  else
    { dominant := frameDets.foldl stepDet (none, 0)
      annots := frameDets.map detAnnot
      cropCalls := 0
      frameCalls := 1 }

/-! ## Specification-side functions for the aggregation claims -/

/-- The confidences of the present per-face results, in face order. -/
def presentConfs (rs : List FaceResult) : List ℚ :=
  rs.filterMap fun r => r.map Prod.snd

/-- The maximal confidence among the present per-face results (`0` when none). -/
def maxConf (rs : List FaceResult) : ℚ :=
  (presentConfs rs).foldl max 0

/-- The class id of the first (earliest, in face iteration order) present
result whose confidence equals `M`. -/
def firstAtMax (M : ℚ) (rs : List FaceResult) : Option Nat :=
  rs.findSome? fun r => r.bind fun p => if p.2 = M then some p.1 else none

/-! ## Helper lemmas about the aggregation fold -/

theorem le_foldl_max (c : ℚ) (l : List ℚ) : c ≤ l.foldl max c := by
  induction l generalizing c with
  | nil => exact le_refl c
  | cons x xs ih => exact le_trans (le_max_left c x) (ih (max c x))

theorem mem_le_foldl_max {x : ℚ} {l : List ℚ} (hx : x ∈ l) (c : ℚ) :
    x ≤ l.foldl max c := by
  induction l generalizing c with
  | nil => cases hx
  | cons y ys ih =>
    rcases List.mem_cons.1 hx with h | h
    · subst h
      exact le_trans (le_max_right c x) (le_foldl_max (max c x) ys)
    · exact ih h (max c y)

theorem foldl_max_of_le {c : ℚ} {l : List ℚ} (h : ∀ x ∈ l, x ≤ c) :
    l.foldl max c = c := by
  induction l with
  | nil => rfl
  | cons y ys ih =>
    rw [List.foldl_cons, max_eq_left (h y (List.mem_cons_self y ys))]
    exact ih fun x hx => h x (List.mem_cons_of_mem y hx)

theorem presentConfs_cons_none (rs : List FaceResult) :
    presentConfs (none :: rs) = presentConfs rs := rfl

theorem presentConfs_cons_some (i : Nat) (q : ℚ) (rs : List FaceResult) :
    presentConfs (some (i, q) :: rs) = q :: presentConfs rs := rfl

theorem snd_mem_presentConfs {p : Nat × ℚ} {rs : List FaceResult}
    (h : some p ∈ rs) : p.2 ∈ presentConfs rs := by
  simp only [presentConfs, List.mem_filterMap]
  exact ⟨some p, h, rfl⟩

theorem mem_presentConfs {x : ℚ} {rs : List FaceResult}
    (h : x ∈ presentConfs rs) : ∃ p : Nat × ℚ, some p ∈ rs ∧ p.2 = x := by
  simp only [presentConfs, List.mem_filterMap] at h
  obtain ⟨r, hr, hx⟩ := h
  cases r with
  | none => simp at hx
  | some p =>
    refine ⟨p, hr, ?_⟩
    simpa using hx

theorem firstAtMax_cons_none (M : ℚ) (rs : List FaceResult) :
    firstAtMax M (none :: rs) = firstAtMax M rs := rfl

theorem firstAtMax_cons_some (M q : ℚ) (i : Nat) (rs : List FaceResult) :
    firstAtMax M (some (i, q) :: rs) =
      if q = M then some i else firstAtMax M rs := by
  by_cases h : q = M <;> simp [firstAtMax, List.findSome?, h]

/-- The confidence component of the tracking fold is the running maximum of
the present confidences. -/
theorem stepFold_snd (rs : List FaceResult) (d : Option String) (c : ℚ) :
    (rs.foldl stepFace (d, c)).2 = (presentConfs rs).foldl max c := by
  induction rs generalizing d c with
  | nil => rfl
  | cons r rs ih =>
    cases r with
    | none =>
      rw [presentConfs_cons_none, List.foldl_cons]
      exact ih d c
    | some p =>
      obtain ⟨i, q⟩ := p
      rw [presentConfs_cons_some, List.foldl_cons, List.foldl_cons]
      by_cases h : c < q
      · have hs : stepFace (d, c) (some (i, q)) = (some (labelOf i), q) := by
          simp [stepFace, h]
        rw [hs, ih, max_eq_right h.le]
      · have hs : stepFace (d, c) (some (i, q)) = (d, c) := by
          simp [stepFace, h]
        rw [hs, ih, max_eq_left (le_of_not_lt h)]

/-- If no later present result strictly beats the running best, the fold
leaves the accumulator unchanged. -/
theorem stepFold_of_no_improve (rs : List FaceResult) (d : Option String)
    (c : ℚ) (h : ∀ p : Nat × ℚ, some p ∈ rs → p.2 ≤ c) :
    rs.foldl stepFace (d, c) = (d, c) := by
  induction rs with
  | nil => rfl
  | cons r rs ih =>
    cases r with
    | none =>
      rw [List.foldl_cons]
      exact ih fun p hp => h p (List.mem_cons_of_mem _ hp)
    | some p =>
      obtain ⟨i, q⟩ := p
      have hq : q ≤ c := h (i, q) (List.mem_cons_self _ _)
      have hs : stepFace (d, c) (some (i, q)) = (d, c) := by
        simp [stepFace, not_lt.mpr hq]
      rw [List.foldl_cons, hs]
      exact ih fun p hp => h p (List.mem_cons_of_mem _ hp)

/-- The label component of the tracking fold: when some present result
strictly beats the initial confidence, the final label is that of the first
present result attaining the maximal confidence. -/
theorem stepFold_fst (rs : List FaceResult) (d : Option String) (c : ℚ)
    (hex : ∃ p : Nat × ℚ, some p ∈ rs ∧ c < p.2) :
    (rs.foldl stepFace (d, c)).1 =
      (firstAtMax ((presentConfs rs).foldl max c) rs).map labelOf := by
  induction rs generalizing d c with
  | nil =>
    obtain ⟨p, hp, _⟩ := hex
    cases hp
  | cons r rs ih =>
    cases r with
    | none =>
      have hex' : ∃ p : Nat × ℚ, some p ∈ rs ∧ c < p.2 := by
        obtain ⟨p, hp, hc⟩ := hex
        rcases List.mem_cons.1 hp with h | h
        · exact absurd h (by simp)
        · exact ⟨p, h, hc⟩
      rw [presentConfs_cons_none, firstAtMax_cons_none, List.foldl_cons]
      exact ih d c hex'
    | some p =>
      obtain ⟨i, q⟩ := p
      rw [presentConfs_cons_some, List.foldl_cons, List.foldl_cons]
      by_cases hcq : c < q
      · have hs : stepFace (d, c) (some (i, q)) = (some (labelOf i), q) := by
          simp [stepFace, hcq]
        rw [hs, max_eq_right hcq.le]
        by_cases hbig : ∃ p : Nat × ℚ, some p ∈ rs ∧ q < p.2
        · rw [ih (some (labelOf i)) q hbig]
          obtain ⟨p', hp', hq'⟩ := hbig
          have hqM : q < (presentConfs rs).foldl max q :=
            lt_of_lt_of_le hq' (mem_le_foldl_max (snd_mem_presentConfs hp') q)
          rw [firstAtMax_cons_some, if_neg (ne_of_lt hqM)]
        · push_neg at hbig
          have hno : ∀ p : Nat × ℚ, some p ∈ rs → p.2 ≤ q := hbig
          rw [stepFold_of_no_improve rs _ q hno]
          have hM : (presentConfs rs).foldl max q = q := by
            refine foldl_max_of_le fun x hx => ?_
            obtain ⟨p, hp, hpx⟩ := mem_presentConfs hx
            exact hpx ▸ hno p hp
          rw [hM, firstAtMax_cons_some, if_pos rfl]
          rfl
      · have hs : stepFace (d, c) (some (i, q)) = (d, c) := by
          simp [stepFace, hcq]
        have hqc : q ≤ c := le_of_not_lt hcq
        rw [hs, max_eq_left hqc]
        have hex' : ∃ p : Nat × ℚ, some p ∈ rs ∧ c < p.2 := by
          obtain ⟨p', hp', hc'⟩ := hex
          rcases List.mem_cons.1 hp' with h | h
          · injection h with h2
            rw [h2] at hc'
            exact absurd hc' hcq
          · exact ⟨p', h, hc'⟩
        rw [ih d c hex']
        obtain ⟨p', hp', hc'⟩ := hex'
        have hcM : c < (presentConfs rs).foldl max c :=
          lt_of_lt_of_le hc' (mem_le_foldl_max (snd_mem_presentConfs hp') c)
        have hqM : q ≠ (presentConfs rs).foldl max c :=
          ne_of_lt (lt_of_le_of_lt hqc hcM)
        rw [firstAtMax_cons_some, if_neg hqM]

/-- The whole-frame fallback detections viewed as per-face-style results
(`cls_id` is always an `int` there, so every entry is present). -/
def detResults (dets : List Det) : List FaceResult :=
  dets.map fun d => some (d.clsId, d.conf)

theorem stepDet_fold_eq (dets : List Det) (acc : Option String × ℚ) :
    dets.foldl stepDet acc = (detResults dets).foldl stepFace acc := by
  induction dets generalizing acc with
  | nil => rfl
  | cons d ds ih =>
    rw [List.foldl_cons]
    exact ih (stepDet acc d)

/-- C1: for every frame in which the face locator returns one or more
rectangles (and some face crop yields a classification result of positive
confidence), the Aggregator's dominant emotion is the per-face classification
result with strictly maximal confidence, the first such result in face
iteration order winning on equal confidences. -/
theorem dominant_is_first_strict_max
    (faces : List Rect) (classifyCrop : Rect → List Det) (frameDets : List Det)
    (hfaces : faces ≠ [])
    (hex : ∃ p : Nat × ℚ, some p ∈ faceResults faces classifyCrop ∧ 0 < p.2) :
    (detect_and_draw faces classifyCrop frameDets).dominant =
      ((firstAtMax (maxConf (faceResults faces classifyCrop))
          (faceResults faces classifyCrop)).map labelOf,
        maxConf (faceResults faces classifyCrop)) := by
  have hlen : 0 < faces.length := List.length_pos.mpr hfaces
  have hdom : (detect_and_draw faces classifyCrop frameDets).dominant =
      (faceResults faces classifyCrop).foldl stepFace (none, 0) := by
    simp [detect_and_draw, hlen]
  rw [hdom, Prod.ext_iff]
  exact ⟨stepFold_fst (faceResults faces classifyCrop) none 0 hex,
    stepFold_snd (faceResults faces classifyCrop) none 0⟩

/-- Witness for `dominant_is_first_strict_max`: two faces tie at confidence
9; the earlier face ("happy", class 4) stays dominant over the later
("sad", class 6). -/
theorem dominant_is_first_strict_max_witness :
    (detect_and_draw [⟨0, 0, 10, 10⟩, ⟨20, 0, 10, 10⟩]
      (fun r => if r.x = 0 then [⟨4, 9⟩] else [⟨6, 9⟩]) []).dominant =
      (some "happy", 9) := by
  have h := dominant_is_first_strict_max [⟨0, 0, 10, 10⟩, ⟨20, 0, 10, 10⟩]
    (fun r => if r.x = 0 then [⟨4, 9⟩] else [⟨6, 9⟩]) []
    (by decide) ⟨(4, 9), by decide, by norm_num⟩
  rw [h]
  decide

/-- C2: for every frame in which the face locator returns zero rectangles,
the Aggregator runs the classifier on the whole frame exactly once (and on no
crop), applies the same strictly-highest-confidence-wins rule over that call's
detections, and returns label `none` with confidence `0` when that call
yields no detection. -/
theorem zero_faces_fallback
    (classifyCrop : Rect → List Det) (frameDets : List Det) :
    (detect_and_draw [] classifyCrop frameDets).frameCalls = 1 ∧
    (detect_and_draw [] classifyCrop frameDets).cropCalls = 0 ∧
    (frameDets = [] →
      (detect_and_draw [] classifyCrop frameDets).dominant = (none, 0)) ∧
    ((∃ d ∈ frameDets, 0 < d.conf) →
      (detect_and_draw [] classifyCrop frameDets).dominant =
        ((firstAtMax (maxConf (detResults frameDets))
            (detResults frameDets)).map labelOf,
          maxConf (detResults frameDets))) := by
  refine ⟨rfl, rfl, ?_, ?_⟩
  · rintro rfl
    rfl
  · intro hex
    obtain ⟨d, hd, hc⟩ := hex
    have hex' : ∃ p : Nat × ℚ, some p ∈ detResults frameDets ∧ 0 < p.2 := by
      refine ⟨(d.clsId, d.conf), ?_, hc⟩
      simp only [detResults, List.mem_map]
      exact ⟨d, hd, rfl⟩
    have hdom : (detect_and_draw [] classifyCrop frameDets).dominant =
        (detResults frameDets).foldl stepFace (none, 0) := by
      simp [detect_and_draw, stepDet_fold_eq]
    rw [hdom, Prod.ext_iff]
    exact ⟨stepFold_fst (detResults frameDets) none 0 hex',
      stepFold_snd (detResults frameDets) none 0⟩

/-- Witness for `zero_faces_fallback`: with no faces, two whole-frame
detections tying at confidence 5 give exactly one frame-level classifier call
and the earlier detection ("disgust", class 2) as dominant; an empty
detection list gives `(none, 0)`. -/
theorem zero_faces_fallback_witness :
    (detect_and_draw [] (fun _ => []) [⟨2, 5⟩, ⟨5, 5⟩]).frameCalls = 1 ∧
    (detect_and_draw [] (fun _ => []) [⟨2, 5⟩, ⟨5, 5⟩]).dominant =
      (some "disgust", 5) ∧
    (detect_and_draw [] (fun _ => []) []).dominant = (none, 0) := by
  refine ⟨(zero_faces_fallback (fun _ => []) [⟨2, 5⟩, ⟨5, 5⟩]).1, ?_, ?_⟩
  · have h := (zero_faces_fallback (fun _ => []) [⟨2, 5⟩, ⟨5, 5⟩]).2.2.2
      ⟨⟨2, 5⟩, by decide, by norm_num⟩
    rw [h]
    decide
  · exact (zero_faces_fallback (fun _ => []) []).2.2.1 rfl

/-- C3 counterexample: for a face whose classifier result has the
out-of-range class id 8, the dominant label is the raw numeric string "8",
but the drawn annotation is the placeholder "..." — not the raw numeric
string, contradicting the claim that both renderings use the raw id. -/
theorem out_of_range_annotation_counterexample :
    (detect_and_draw [⟨0, 0, 10, 10⟩] (fun _ => [⟨8, 9⟩]) []).dominant.1 =
      some "8" ∧
    (detect_and_draw [⟨0, 0, 10, 10⟩] (fun _ => [⟨8, 9⟩]) []).annots =
      ["..."] ∧
    "..." ≠ toString (8 : Nat) := by
  decide

/-- C3 amended: an out-of-range class id never makes the Aggregator raise;
it is rendered as its raw numeric string as the dominant label, while the
drawn annotation shows the placeholder "..." (in both the per-face and the
whole-frame path); in-range ids are rendered as the corresponding
enumeration name. -/
theorem out_of_range_class_rendering (clsId : Nat) (q : ℚ)
    (hout : EMOTION_NAMES.length ≤ clsId) :
    labelOf clsId = toString clsId ∧
    faceAnnot (some (clsId, q)) = "..." ∧
    detAnnot ⟨clsId, q⟩ = "..." ∧
    (∀ i : Nat, ∀ hin : i < EMOTION_NAMES.length,
      labelOf i = EMOTION_NAMES.get ⟨i, hin⟩) ∧
    (0 < q →
      (detect_and_draw [⟨0, 0, 10, 10⟩] (fun _ => [⟨clsId, q⟩]) []).dominant =
        (some (toString clsId), q)) := by
  have hnl : ¬ clsId < EMOTION_NAMES.length := not_lt.mpr hout
  refine ⟨dif_neg hnl, ?_, ?_, fun i hin => dif_pos hin, ?_⟩
  · show (if h : clsId < EMOTION_NAMES.length then _ else "...") = "..."
    exact dif_neg hnl
  · exact dif_neg hnl
  · intro hq
    have hs : stepFace (none, 0) (some (clsId, q)) =
        (some (labelOf clsId), q) := by
      simp [stepFace, hq]
    have hd : (detect_and_draw [⟨0, 0, 10, 10⟩] (fun _ => [⟨clsId, q⟩])
        []).dominant = stepFace (none, 0) (some (clsId, q)) := rfl
    rw [hd, hs, show labelOf clsId = toString clsId from dif_neg hnl]

/-- Witness for `out_of_range_class_rendering` at class id 9 with
confidence 4. -/
theorem out_of_range_class_rendering_witness :
    labelOf 9 = "9" ∧ faceAnnot (some (9, (4 : ℚ))) = "..." ∧
    (detect_and_draw [⟨0, 0, 10, 10⟩] (fun _ => [⟨9, 4⟩]) []).dominant =
      (some "9", 4) := by
  have h := out_of_range_class_rendering 9 4 (by decide)
  exact ⟨h.1.trans (by decide), h.2.1,
    (h.2.2.2.2 (by norm_num)).trans (by decide)⟩

/-! ## utils/emotion_to_song.py -/

/-- `PLAYLISTS` from utils/emotion_to_song.py: the static emotion→playlist
table (keys are pairwise distinct, so association-list lookup models the
Python dict). -/
def PLAYLISTS : List (String × String) :=
  [("anger", "spotify:playlist:37i9dQZF1DX8tZsk68tuDw"),
   ("content", "spotify:playlist:37i9dQZF1DX4WYpdgoIcn6"),
   ("disgust", "spotify:playlist:37i9dQZF1DX4VvfRBFClxm"),
   ("fear", "spotify:playlist:37i9dQZF1DWXRqgorJj26U"),
   ("happy", "spotify:playlist:37i9dQZF1DXdPec7aLTmlC"),
   ("neutral", "spotify:playlist:37i9dQZF1DX4sWSpwq3LiO"),
   ("sad", "spotify:playlist:37i9dQZF1DX7qK8ma5wgG1"),
   ("surprise", "spotify:playlist:37i9dQZF1DXcBWIGoYBM5M")]

/-- Python's `str.lower()` on the ASCII strings in play: character-wise
lowercasing (extensionally `String.toLower`, written over the character list
so that concrete instances reduce). -/
def strLower (s : String) : String :=
  ⟨s.data.map Char.toLower⟩

/-- `get_playlist_for_emotion`: `PLAYLISTS.get(emotion.lower())`. -/
def get_playlist_for_emotion (emotion : String) : Option String :=
  PLAYLISTS.lookup (strLower emotion)

/-! ## utils/spotify_client.py -/

/-- A cached token record (the fields the code reads: `access_token`,
`refresh_token` — absent when the dict lacks the key — and `expires_at` in
epoch seconds). -/
structure TokenRecord where
  access_token : String
  refresh_token : Option String
  expires_at : Int
  deriving DecidableEq, Repr

/-- The externally visible side effects of the credential-cache functions. -/
inductive AuthEvent
  | refreshCall
  | interactiveAuth
  | cacheWrite
  | cacheDelete
  deriving DecidableEq, Repr

/-- `run_interactive_auth` (spotify_client.py lines 51–77), with the browser
interaction, the pasted redirect URL and the code exchange abstracted into
the resulting token `ia`: it runs the interactive authorization and writes
the result to the cache file. -/
def run_interactive_auth (ia : TokenRecord) :
    TokenRecord × Option TokenRecord × List AuthEvent :=
  (ia, some ia, [.interactiveAuth, .cacheWrite])

/-- `ensure_spotify_client` (spotify_client.py lines 79–113).  `cache` is the
parse of the cache file (`none` for a missing or unreadable file), `now` is
`int(time.time())`, `refreshOutcome` is the refresh-call oracle (`.error`
models `refresh_access_token` raising) and `ia` the interactive-flow oracle.
Returns the token the call ends with, the resulting cache-file content, and
the trace of side effects in order. -/
def ensure_spotify_client (cache : Option TokenRecord) (now : Int)
    (refreshOutcome : Except Unit TokenRecord) (ia : TokenRecord) :
    TokenRecord × Option TokenRecord × List AuthEvent :=
  match cache with
  | some t =>
    if t.expires_at - now < 60 then
      match t.refresh_token with
      | some _ =>
        match refreshOutcome with
        | .ok nt => (nt, some nt, [.refreshCall, .cacheWrite])
        | .error _ =>
          let r := run_interactive_auth ia
          (r.1, r.2.1, .refreshCall :: r.2.2)
      | none => run_interactive_auth ia
    else
      (t, some t, [])
  | none => run_interactive_auth ia

/-- `force_reauth` (spotify_client.py lines 169–176): delete the cache file
when it exists; never authorize or refresh by itself. -/
def force_reauth (cache : Option TokenRecord) :
    Option TokenRecord × List AuthEvent :=
  match cache with
  | some _ => (none, [.cacheDelete])
  | none => (none, [])

/-- One playback device as reported by `sp.devices()`. -/
structure Device where
  id : String
  is_active : Bool
  deriving DecidableEq, Repr

/-- The device-scanning loop of `get_active_device_id`
(spotify_client.py lines 121–123). -/
def findActiveId : List Device → Option String
  | [] => none
  | d :: ds => if d.is_active then some d.id else findActiveId ds

/-- `get_active_device_id` (spotify_client.py lines 115–127): `none` on an
empty device list, else the id of the first device flagged active, else the
first device's id. -/
def get_active_device_id (devices : List Device) : Option String :=
  match devices with
  | [] => none
  | d0 :: ds => some ((findActiveId (d0 :: ds)).getD d0.id)

/-- The externally visible side effects of `start_playback`. -/
inductive PlayEvent
  | refreshCall
  | cacheWrite
  | startCall
  | fallbackLaunch
  deriving DecidableEq, Repr

/-- The device-choice and start-playback part of `start_playback`'s `try`
block (spotify_client.py lines 141–146) with its `except` fallback (lines
148–167): a missing device raises, and any failure launches the playlist
through the generic fallback chain (OS handler / shell start / web URL)
exactly once.  `startOk` is the oracle for whether `sp.start_playback`
succeeds. -/
def playAfterRefresh (devices : List Device) (startOk : Bool) :
    Bool × List PlayEvent :=
  match get_active_device_id devices with
  | none => (false, [.fallbackLaunch])
  | some _ =>
    if startOk then (true, [.startCall])
    else (false, [.startCall, .fallbackLaunch])

/-- `start_playback` (spotify_client.py lines 129–167).  `tokenExpired`
models `oauth.is_token_expired(token_info)` and `refreshOutcome` the
refresh call of line 137 (`.error` models it raising, which the `except`
turns into the fallback path). -/
def start_playback (tokenExpired : Bool)
    (refreshOutcome : Except Unit TokenRecord) (devices : List Device)
    (startOk : Bool) : Bool × List PlayEvent :=
  if tokenExpired then
    match refreshOutcome with
    | .error _ => (false, [.refreshCall, .fallbackLaunch])
    | .ok _ =>
      let r := playAfterRefresh devices startOk
      (r.1, .refreshCall :: .cacheWrite :: r.2)
  else
    playAfterRefresh devices startOk

/-! ## main.py — session state and capture action -/

/-- The session-state update of main.py lines 61–63 (`if dom_emotion:`):
the state is replaced only when the frame's dominant label is truthy
(present and non-empty in Python); otherwise the previous reading is kept. -/
def update_session (st : Option String × ℚ) (out : Option String × ℚ) :
    Option String × ℚ :=
  match out.1 with
  | some e => if e = "" then st else (some e, out.2)
  | none => st

/-- The session state after processing a list of frames' aggregator outputs,
starting from `current_emotion = None`, `current_conf = 0.0`
(main.py lines 47–48). -/
def run_session (outs : List (Option String × ℚ)) : Option String × ℚ :=
  outs.foldl update_session (none, 0)

/-- The outcome of one capture ('q') key press in the main loop. -/
inductive CaptureOutcome
  | nothingToCapture
  | unmappedEmotion
  | authFailed
  | apiPlayed
  | fallbackUsed
  deriving DecidableEq, Repr

/-- The externally visible steps taken by the capture action. -/
inductive CapEvent
  | mappingLookup
  | credentialCall
  | playbackDispatch
  deriving DecidableEq, Repr

/-- The capture ('q') branch of the main loop (main.py lines 85–115): with
no emotion yet, report "nothing to capture" and do nothing else; otherwise
look the label up in the mapping; on a hit obtain a credential
(`ensureOutcome` models `ensure_spotify_client` raising or returning) and
dispatch playback (`playOk` models `start_playback`'s boolean result). -/
def capture_action (current_emotion : Option String)
    (ensureOutcome : Except Unit TokenRecord) (playOk : Bool) :
    CaptureOutcome × List CapEvent :=
  match current_emotion with
  | none => (.nothingToCapture, [])
  | some e =>
    match get_playlist_for_emotion e with
    | none => (.unmappedEmotion, [.mappingLookup])
    | some _ =>
      match ensureOutcome with
      | .error _ => (.authFailed, [.mappingLookup, .credentialCall])
      | .ok _ =>
        if playOk then
          (.apiPlayed, [.mappingLookup, .credentialCall, .playbackDispatch])
        else
          (.fallbackUsed, [.mappingLookup, .credentialCall, .playbackDispatch])

/-! ## Credential cache claims -/

/-- C4: a cached record at least 60 seconds from expiry is returned
unchanged, with no refresh call, no interactive authorization and no cache
write. -/
theorem fresh_token_returned_unchanged (t : TokenRecord) (now : Int)
    (refreshOutcome : Except Unit TokenRecord) (ia : TokenRecord)
    (h : 60 ≤ t.expires_at - now) :
    ensure_spotify_client (some t) now refreshOutcome ia = (t, some t, []) := by
  show (if t.expires_at - now < 60 then _ else (t, some t, [])) = (t, some t, [])
  rw [if_neg (not_lt.mpr h)]

/-- Witness for `fresh_token_returned_unchanged` with `expires_at` 3600
seconds in the future. -/
theorem fresh_token_returned_unchanged_witness :
    ensure_spotify_client (some ⟨"a", some "r", 3600⟩) 0 (.error ())
        ⟨"b", none, 0⟩ =
      (⟨"a", some "r", 3600⟩, some ⟨"a", some "r", 3600⟩, []) :=
  fresh_token_returned_unchanged ⟨"a", some "r", 3600⟩ 0 (.error ())
    ⟨"b", none, 0⟩ (by norm_num)

/-- C5: for a cached record within 60 seconds of expiry: with a refresh token
present, exactly one refresh call is made; on its success the refreshed
record is persisted and returned; on its failure the interactive flow runs,
persists its result and returns it; with no refresh token, the interactive
flow runs directly. -/
theorem near_expiry_refresh_or_interactive (t : TokenRecord) (now : Int)
    (refreshOutcome : Except Unit TokenRecord) (ia : TokenRecord)
    (h : t.expires_at - now < 60) :
    (t.refresh_token.isSome →
      (ensure_spotify_client (some t) now refreshOutcome ia).2.2.count
          .refreshCall = 1 ∧
      (∀ nt, refreshOutcome = .ok nt →
        ensure_spotify_client (some t) now refreshOutcome ia =
          (nt, some nt, [.refreshCall, .cacheWrite])) ∧
      (refreshOutcome = .error () →
        ensure_spotify_client (some t) now refreshOutcome ia =
          (ia, some ia, [.refreshCall, .interactiveAuth, .cacheWrite]))) ∧
    (t.refresh_token = none →
      ensure_spotify_client (some t) now refreshOutcome ia =
        (ia, some ia, [.interactiveAuth, .cacheWrite])) := by
  have he : ensure_spotify_client (some t) now refreshOutcome ia =
      (match t.refresh_token with
        | some _ =>
          match refreshOutcome with
          | .ok nt => (nt, some nt, [.refreshCall, .cacheWrite])
          | .error _ =>
            (ia, some ia, [.refreshCall, .interactiveAuth, .cacheWrite])
        | none => (ia, some ia, [.interactiveAuth, .cacheWrite])) := by
    show (if t.expires_at - now < 60 then _ else _) = _
    rw [if_pos h]
    cases t.refresh_token <;> cases refreshOutcome <;> rfl
  constructor
  · intro hrt
    obtain ⟨rt, hrt'⟩ := Option.isSome_iff_exists.mp hrt
    rw [hrt'] at he
    refine ⟨?_, fun nt hnt => ?_, fun herr => ?_⟩
    · rw [he]
      cases refreshOutcome <;> rfl
    · rw [he, hnt]
    · rw [he, herr]
  · intro hnone
    rw [hnone] at he
    rw [he]

/-- Witness for `near_expiry_refresh_or_interactive`: `expires_at` 10 seconds
in the future, refresh token present, refresh succeeds — one refresh call,
result persisted and returned. -/
theorem near_expiry_refresh_or_interactive_witness :
    ensure_spotify_client (some ⟨"a", some "r", 10⟩) 0
        (.ok ⟨"a2", some "r2", 7200⟩) ⟨"b", none, 0⟩ =
      (⟨"a2", some "r2", 7200⟩, some ⟨"a2", some "r2", 7200⟩,
        [.refreshCall, .cacheWrite]) := by
  have h := near_expiry_refresh_or_interactive ⟨"a", some "r", 10⟩ 0
    (.ok ⟨"a2", some "r2", 7200⟩) ⟨"b", none, 0⟩ (by norm_num)
  exact (h.1 rfl).2.1 ⟨"a2", some "r2", 7200⟩ rfl

/-- C8: `force_reauth` clears the cache unconditionally and is idempotent;
on a missing cache it is a no-op that does not raise; it never refreshes or
authorizes by itself, and the next `ensure_spotify_client` call on the
cleared cache takes the interactive path. -/
theorem force_reauth_clears_cache (cache : Option TokenRecord) :
    (force_reauth cache).1 = none ∧
    force_reauth (force_reauth cache).1 = (none, []) ∧
    force_reauth (none : Option TokenRecord) = (none, []) ∧
    AuthEvent.interactiveAuth ∉ (force_reauth cache).2 ∧
    AuthEvent.refreshCall ∉ (force_reauth cache).2 ∧
    (∀ (now : Int) (ro : Except Unit TokenRecord) (ia : TokenRecord),
      ensure_spotify_client (force_reauth cache).1 now ro ia =
        (ia, some ia, [.interactiveAuth, .cacheWrite])) := by
  cases cache with
  | none =>
    refine ⟨rfl, rfl, rfl, ?_, ?_, fun now ro ia => rfl⟩ <;> simp [force_reauth]
  | some t =>
    refine ⟨rfl, rfl, rfl, ?_, ?_, fun now ro ia => rfl⟩ <;> simp [force_reauth]

/-! ## Playback dispatch claims -/

theorem findActiveId_eq (ds : List Device) :
    findActiveId ds = (ds.find? fun d => d.is_active).map fun d => d.id := by
  induction ds with
  | nil => rfl
  | cons d ds ih =>
    cases ha : d.is_active with
    | true => simp [findActiveId, List.find?_cons, ha]
    | false => simp [findActiveId, List.find?_cons, ha, ih]

/-- C6: the Dispatcher chooses the first device flagged active, else the
first device of the list; with an empty device list, `start_playback` issues
no start-playback call, launches the generic fallback exactly once and
returns `false`. -/
theorem device_choice_and_empty_fallback (devices : List Device) :
    get_active_device_id devices =
      (match devices.find? fun d => d.is_active with
        | some d => some d.id
        | none => devices.head?.map fun d => d.id) ∧
    (devices = [] → ∀ (te : Bool) (ro : Except Unit TokenRecord) (so : Bool),
      (start_playback te ro devices so).1 = false ∧
      (start_playback te ro devices so).2.count .startCall = 0 ∧
      (start_playback te ro devices so).2.count .fallbackLaunch = 1) := by
  constructor
  · cases devices with
    | nil => rfl
    | cons d ds =>
      show some ((findActiveId (d :: ds)).getD d.id) = _
      rw [findActiveId_eq]
      cases hf : (d :: ds).find? fun d => d.is_active with
      | none => simp
      | some e => simp
  · rintro rfl te ro so
    cases te <;> cases ro <;>
      simp [start_playback, playAfterRefresh, get_active_device_id,
        List.count_cons, List.count_nil]
/-- Witness for `device_choice_and_empty_fallback` on the empty device
list. -/
theorem device_choice_and_empty_fallback_witness :
    (start_playback false (.error ()) [] true).1 = false ∧
    (start_playback false (.error ()) [] true).2.count .startCall = 0 ∧
    (start_playback false (.error ()) [] true).2.count .fallbackLaunch = 1 :=
  (device_choice_and_empty_fallback []).2 rfl false (.error ()) true

/-! ## Session-state and capture claims -/

/-- C7: a capture trigger while no emotion has been observed reports
"nothing to capture" and performs no mapping lookup, no credential
acquisition and no playback dispatch. -/
theorem capture_none_nothing_to_capture
    (ensureOutcome : Except Unit TokenRecord) (playOk : Bool) :
    capture_action none ensureOutcome playOk =
      (.nothingToCapture, []) := rfl

/-- C9 counterexample: after a frame with dominant "happy" followed by a
frame whose dominant label is `none`, the Session State still reads
`(some "happy", 9)` rather than the latest frame's `(none, 0)` — the claim
fails for frames whose dominant label is none. -/
theorem session_not_latest_frame_counterexample :
    run_session [(some "happy", 9), (none, 0)] = (some "happy", 9) ∧
    run_session [(some "happy", 9), (none, 0)] ≠
      ((none : Option String), (0 : ℚ)) := by
  decide

/-- C9 amended: after every processed frame whose dominant label is present
(and non-empty), the Session State equals that frame's aggregator output;
frames whose dominant label is `none` leave the Session State unchanged —
the capture action reads the most recent non-none reading, not necessarily
the most recent frame's output. -/
theorem session_keeps_latest_present_reading
    (outs : List (Option String × ℚ)) (out : Option String × ℚ) :
    (∀ e, out.1 = some e → e ≠ "" → run_session (outs ++ [out]) = out) ∧
    (out.1 = none → run_session (outs ++ [out]) = run_session outs) := by
  have happ : run_session (outs ++ [out]) =
      update_session (run_session outs) out := by
    rw [run_session, List.foldl_append]
    rfl
  constructor
  · intro e he hne
    obtain ⟨o, c⟩ := out
    simp only at he
    subst he
    rw [happ]
    simp [update_session, hne]
  · intro hn
    obtain ⟨o, c⟩ := out
    simp only at hn
    subst hn
    rw [happ]
    rfl

/-- Witness for `session_keeps_latest_present_reading`: a "happy" frame
updates the state, a following none-frame leaves it unchanged. -/
theorem session_keeps_latest_present_reading_witness :
    run_session [((some "happy" : Option String), (9 : ℚ))] =
      (some "happy", 9) ∧
    run_session [((some "happy" : Option String), (9 : ℚ)),
      ((none : Option String), (0 : ℚ))] = (some "happy", 9) := by
  have h1 := (session_keeps_latest_present_reading []
    ((some "happy" : Option String), (9 : ℚ))).1 "happy" rfl (by decide)
  have h2 := (session_keeps_latest_present_reading
    [((some "happy" : Option String), (9 : ℚ))]
    ((none : Option String), (0 : ℚ))).2 rfl
  constructor
  · exact h1
  · rw [show [((some "happy" : Option String), (9 : ℚ)),
        ((none : Option String), (0 : ℚ))] =
      [((some "happy" : Option String), (9 : ℚ))] ++
        [((none : Option String), (0 : ℚ))] from rfl, h2]
    exact h1

/-- C10: every label of the 8-entry emotion enumeration, in any letter case,
maps to a playlist URI, so the capture action's "unmapped emotion" branch is
unreachable for enumeration labels. -/
theorem all_emotions_mapped (s : String) (h : strLower s ∈ EMOTION_NAMES) :
    (get_playlist_for_emotion s).isSome ∧
    (∀ (eo : Except Unit TokenRecord) (po : Bool),
      (capture_action (some s) eo po).1 ≠ .unmappedEmotion) := by
  have hsome : (get_playlist_for_emotion s).isSome := by
    have hl : get_playlist_for_emotion s = PLAYLISTS.lookup (strLower s) := rfl
    rw [hl]
    simp only [EMOTION_NAMES, List.mem_cons, List.not_mem_nil, or_false] at h
    rcases h with h | h | h | h | h | h | h | h <;> rw [h] <;> decide
  refine ⟨hsome, fun eo po => ?_⟩
  obtain ⟨u, hu⟩ := Option.isSome_iff_exists.mp hsome
  cases eo with
  | error e =>
    simp [capture_action, hu]
  | ok t =>
    cases po <;> simp [capture_action, hu]

/-- Witness for `all_emotions_mapped` at the mixed-case label "Happy". -/
theorem all_emotions_mapped_witness :
    (get_playlist_for_emotion "Happy").isSome ∧
    (capture_action (some "Happy") (.error ()) true).1 ≠ .unmappedEmotion := by
  have h := all_emotions_mapped "Happy" (by decide)
  exact ⟨h.1, h.2 (.error ()) true⟩

end EmotionPlayer
